import Mathlib

/-!
Verification development for the tank-game authoritative server
(`src/server/server.js`).  The server keeps a registry of connected
client sessions, a spatial index (quadtree) of tanks and bullets,
and three periodic drivers: world advance, client broadcast, and
scoreboard refresh.  The definitions below shallowly embed the
state and the socket-event handlers of `server.js`; parts of the
repository that live in modules not present under `src/`
(`lib/clientData.js`, `lib/quadtreeManager.js`,
`lib/gameLogicService.js`, `lib/util.js`, the `heap` package) are
modelled from the specification and are marked as such in their
doc comments.
-/

set_option maxHeartbeats 1000000
set_option maxRecDepth 8000

namespace TankGame

/-- A two-dimensional position, as used for spawn locations and for
`clientData.position` in `server.js`. -/
structure Pos where
  x : Int
  y : Int
deriving DecidableEq, Repr

/-- An axis-aligned bounding box `{x, y, w, h}` as passed to the quadtree,
for example the world-covering query `{x:0,y:0,w:gameWidth,h:gameHeight}`
at `server.js:160`. -/
structure Box where
  x : Int
  y : Int
  w : Int
  h : Int
deriving DecidableEq, Repr

/-- Identity of an indexed entity: either a session's tank (identified by
the owning session id) or one of its bullets (session id plus a serial
number).  Quadtree payloads carry this identity; `server.js:151` removes
the tank entry by the `'id'` attribute. -/
inductive EntityId where
  | tank (sid : Nat)
  | bullet (sid : Nat) (serial : Nat)
deriving DecidableEq, Repr

/-- The session that owns the entity behind an identity. -/
def ownerOf : EntityId → Nat
  | .tank sid => sid
  | .bullet sid _ => sid

/-- One quadtree entry: a bounding box together with the identity of the
entity it indexes (the payload of `forQuadtree()` projections). -/
structure QtEntry where
  box : Box
  id : EntityId
deriving DecidableEq, Repr

/-- Modelled from the spec: axis-aligned box intersection, the geometric
predicate behind the quadtree's range query (`lib/quadtreeManager.js` is
not under `src/`); `query(box)` returns every indexed entry whose
bounding box intersects the query box. -/
def Box.intersects (a b : Box) : Bool :=
  decide (a.x < b.x + b.w) && decide (b.x < a.x + a.w) &&
  decide (a.y < b.y + b.h) && decide (b.y < a.y + a.h)

/-- Modelled from the spec: the quadtree is modelled extensionally as the
list of its entries; a range query filters the entries whose boxes
intersect the query box (`lib/quadtreeManager.js` is missing from
`src/`). -/
def query (qt : List QtEntry) (b : Box) : List QtEntry :=
  qt.filter (fun e => e.box.intersects b)

/-- Modelled from the spec: `quadtree.put` inserts one entry
(`lib/quadtreeManager.js` is missing from `src/`). -/
def putEntry (qt : List QtEntry) (e : QtEntry) : List QtEntry :=
  qt ++ [e]

/-- Modelled from the spec: `quadtree.remove(entry)` without an attribute
key, as called for bullets at `server.js:145`.  It matches entries
structurally (box plus payload), per the contract
`remove(box, payload)`; removing an absent entry is a no-op. -/
def removeKeyless (qt : List QtEntry) (e : QtEntry) : List QtEntry :=
  qt.filter (fun o => decide (o ≠ e))

/-- Modelled from the spec: `quadtree.remove(entry, 'id')` with the
explicit entity-identity key, as called for the tank at
`server.js:151`: every entry whose identity matches is removed,
regardless of its bounding box; removing an absent entry is a no-op. -/
def removeById (qt : List QtEntry) (e : QtEntry) : List QtEntry :=
  qt.filter (fun o => decide (o.id ≠ e.id))

/-- A bullet: position (through its box projection) plus the back
reference to the owning session's tank, per the data model. -/
structure Bullet where
  sid : Nat
  serial : Nat
  box : Box
deriving DecidableEq, Repr

/-- The `bullet.forQuadtree()` projection used at `server.js:145`. -/
def Bullet.forQuadtree (b : Bullet) : QtEntry :=
  ⟨b.box, .bullet b.sid b.serial⟩

/-- A tank: ammo, kill count, display name, box projection and the list
of owned bullets (fields read by `server.js`: `tank.bullets`,
`tank.ammo`, `tank.kills`, `tank.screenName`, `tank.forQuadtree()`). -/
structure Tank where
  sid : Nat
  screenName : String
  kills : Int
  ammo : Int
  box : Box
  bullets : List Bullet
deriving DecidableEq, Repr

/-- The `tank.forQuadtree()` projection used at `server.js:121` and
`server.js:151`. -/
def Tank.forQuadtree (t : Tank) : QtEntry :=
  ⟨t.box, .tank t.sid⟩

/-- All index entries a tank currently accounts for: its own projection
plus one projection per owned bullet. -/
def tankProjections (t : Tank) : List QtEntry :=
  t.forQuadtree :: t.bullets.map Bullet.forQuadtree

/-- The client's input snapshot; the server core stores it without
inspecting it (`server.js:174`). -/
abbrev UserInput := List Nat

/-- The `player` sub-object copied onto the session at `server.js:114`
and mutated by `client_checkin` and `windowResized`. -/
structure Player where
  screenName : String
  screenWidth : Int
  screenHeight : Int
  userInput : Option UserInput
deriving DecidableEq, Repr

/-- One session's server-side state (`lib/clientData.js` instance):
socket id, display name, position, player sub-object, tank, and the
liveness / ping bookkeeping fields touched by `server.js`. -/
structure ClientData where
  id : Nat
  screenName : String
  position : Pos
  player : Player
  tank : Tank
  startPingTime : Option Int
  ping : Option Int
  lastHeartbeat : Option Int
deriving DecidableEq, Repr

/-- Configuration values consumed by `server.js` from `config.json`
(which is not under `src/`). -/
structure Config where
  gameWidth : Int
  gameHeight : Int
  tankAmmoCapacity : Int
  scoreBoardLength : Nat
deriving DecidableEq, Repr

/-- Modelled from the spec: the `ClientData` constructor
(`lib/clientData.js` is missing from `src/`): a fresh session created on
transport connection at `server.js:91`, with the assigned spawn
location, a tank with no bullets yet, and empty bookkeeping fields. -/
def newClientData (cfg : Config) (sid : Nat) (spawn : Pos) : ClientData :=
  { id := sid
    screenName := ""
    position := spawn
    player := { screenName := "", screenWidth := 0, screenHeight := 0, userInput := none }
    tank :=
      { sid := sid
        screenName := ""
        kills := 0
        ammo := cfg.tankAmmoCapacity
        box := ⟨spawn.x, spawn.y, 0, 0⟩
        bullets := [] }
    startPingTime := none
    ping := none
    lastHeartbeat := none }

/-- A scoreboard entry: a value snapshot of display name and kill count,
as produced at `server.js:276`. -/
structure ScoreboardEntry where
  screenName : String
  kills : Int
deriving DecidableEq, Repr

/-- The kind of a world-snapshot field, used to state the field-order
contract of `clientUpdater` (`server.js:249-268`). -/
inductive FieldKind where
  | viewpointK
  | visibleK
  | ammoK
  | scoreboardK
deriving DecidableEq, Repr

/-- One field of the `game_objects_update` message assembled by
`Object.assign` at `server.js:259-267`: the session's perspective, the
visible objects returned by the quadtree query, the ammo status, and
the cached scoreboard. -/
inductive SnapshotField where
  | perspective (x y : Int)
  | visibleObjects (objs : List QtEntry)
  | ammo (capacity count : Int)
  | scoreboard (entries : List ScoreboardEntry)
deriving DecidableEq, Repr

/-- The kind of a snapshot field. -/
def fieldKind : SnapshotField → FieldKind
  | .perspective _ _ => .viewpointK
  | .visibleObjects _ => .visibleK
  | .ammo _ _ => .ammoK
  | .scoreboard _ => .scoreboardK

/-- The field order mandated by the broadcast contract: viewpoint, then
visible objects, then ammo, then scoreboard. -/
def canonicalFieldOrder : List FieldKind :=
  [.viewpointK, .visibleK, .ammoK, .scoreboardK]

/-- The ordered field list one `game_objects_update` message carries for
one session, in `Object.assign` argument order (`server.js:259-267`):
perspective first, then the quadtree query result over the box centred
on the session's position and sized to its screen, then ammo, then the
cached scoreboard.  The quadtree query payload follows the spec's
description of `queryGameObjects` (`lib/quadtreeManager.js` is missing
from `src/`). -/
def buildSnapshot (cfg : Config) (sb : List ScoreboardEntry)
    (qt : List QtEntry) (cd : ClientData) : List SnapshotField :=
  let queryArea : Box :=
    { x := cd.position.x - cd.player.screenWidth / 2
      y := cd.position.y - cd.player.screenHeight / 2
      w := cd.player.screenWidth
      h := cd.player.screenHeight }
  [ .perspective cd.position.x cd.position.y,
    .visibleObjects (query qt queryArea),
    .ammo cfg.tankAmmoCapacity cd.tank.ammo,
    .scoreboard sb ]

/-- Modelled from the spec and from the source's own comment at
`server.js:250-258`: the JSON wire format leaves object properties
unordered, so the transport may deliver any permutation of the
assembled field list; a wire ordering is valid when it is a
permutation of the built message. -/
def validWireOrder (built wire : List SnapshotField) : Prop :=
  wire.Perm built

/-- An outbound socket emission of `server.js`: the `welcome` reply to
`init`, the `pingcheck` probe of `checkPing`, and the
`game_objects_update` broadcast of `clientUpdater`. -/
inductive Emission where
  | welcome (sid : Nat) (cd : ClientData) (gameWidth gameHeight : Int)
  | pingcheckMsg (sid : Nat)
  | gameObjectsUpdate (sid : Nat) (msg : List SnapshotField)
deriving DecidableEq, Repr

/-- The mutable server-global state of `server.js`: the per-socket
`ClientData` closures of all open connections, the
`currentClientDatas` registry (as the list of session ids, in push
order), the quadtree, and the cached `scoreboardList`. -/
structure ServerState where
  connections : List ClientData
  registry : List Nat
  quadtree : List QtEntry
  scoreboardList : List ScoreboardEntry
deriving DecidableEq, Repr

/-- The state at server start: no connections, empty registry and
quadtree, and `scoreboardList` initialised to the empty list
(`server.js:68-70`). -/
def initialState : ServerState :=
  { connections := [], registry := [], quadtree := [], scoreboardList := [] }

/-- Look up the `ClientData` closure of a socket id. -/
def findConn (s : ServerState) (sid : Nat) : Option ClientData :=
  s.connections.find? (fun c => c.id == sid)

/-- Replace the `ClientData` closure of a socket id. -/
def updConn (s : ServerState) (sid : Nat) (cd : ClientData) : ServerState :=
  { s with connections := s.connections.map (fun c => if c.id = sid then cd else c) }

/-- JavaScript's `String.prototype.substring`: both indices are clamped
to the string length and swapped when out of order, and the characters
between them are returned (`server.js:104` calls it as
`screenName.substring(0,10)`). -/
def jsSubstring (s : String) (a b : Nat) : String :=
  let a' := min a s.length
  let b' := min b s.length
  ⟨(s.data.drop (min a' b')).take (max a' b' - min a' b')⟩

/-- A JavaScript runtime error raised inside a socket handler. -/
inductive JsError where
  | typeErrorUndefined
deriving DecidableEq, Repr

/-- The `init` handler (`server.js:102-106`) over a possibly missing
payload, with JavaScript evaluation made explicit: when the client
sends no display name, `screenName` is `undefined` and
`screenName.substring(0,10)` raises a `TypeError`; otherwise the name
is truncated to 10 characters and a `welcome` reply is emitted. -/
def initHandlerJs (cfg : Config) (cd : ClientData) (screenName : Option String) :
    Except JsError (ClientData × List Emission) :=
  match screenName with
  | none => .error .typeErrorUndefined
  | some n =>
      let cd' := { cd with screenName := jsSubstring n 0 10 }
      .ok (cd', [.welcome cd.id cd' cfg.gameWidth cfg.gameHeight])

/-- The `client_checkin` handler (`server.js:173-176`) over a possibly
missing payload: JavaScript assigns the (possibly `undefined`) payload
to `player.userInput` and refreshes the heartbeat; no error is
raised. -/
def checkinHandlerJs (cd : ClientData) (data : Option UserInput) (now : Int) :
    Except JsError ClientData :=
  .ok { cd with
        player := { cd.player with userInput := data }
        lastHeartbeat := some now }

/-- Insert a tank into a list kept in descending kill order, placing it
after every tank whose kill count is at least as high, so that earlier
arrivals win ties. -/
def insertDesc (t : Tank) : List Tank → List Tank
  | [] => [t]
  | y :: ys => if t.kills ≤ y.kills then y :: insertDesc t ys else t :: y :: ys

/-- The stable descending sort by kill count that §4.4 of the design
demands: processing tanks in input order keeps ties in input order. -/
def sortKillsDesc (l : List Tank) : List Tank :=
  l.foldl (fun acc t => insertDesc t acc) []

/-- Modelled from the spec: `Heap.nlargest(array, n, cmp)` of the `heap`
package (not under `src/`), per §4.4: a bounded top-`n` selection that
keeps at most `n` candidates at a time and breaks kill-count ties by
input order. -/
def nlargest (l : List Tank) (n : Nat) : List Tank :=
  l.foldl (fun acc t => (insertDesc t acc).take n) []

/-- `updateScoreboard` (`server.js:271-277`): map the registered
sessions to their tanks, select the `min(count, scoreBoardLength)`
tanks with the highest kill counts, and snapshot them as
(display name, kill count) value pairs. -/
def updateScoreboard (cds : List ClientData) (k : Nat) : List ScoreboardEntry :=
  (nlargest (cds.map (fun cd => cd.tank)) (min cds.length k)).map
    (fun t => { screenName := t.screenName, kills := t.kills })

/-- Restamp a tank and its bullets with the owning session id,
expressing the spec's ownership relation: every bullet carries a back
reference to the owning tank, and entities produced while advancing a
session belong to that session. -/
def forceOwn (tid : Nat) (t : Tank) : Tank :=
  { t with
    sid := tid
    bullets := t.bullets.map (fun b => { b with sid := tid }) }

/-- Modelled from the spec: re-synchronising the index after one
session's advance (`lib/gameLogicService.js` is missing from `src/`):
the session's old entries are dropped and the current projections of
its tank and bullets are indexed, so the session again has exactly one
entry per live entity. -/
def reindexFor (qt : List QtEntry) (tid : Nat) (t : Tank) : List QtEntry :=
  qt.filter (fun e => decide (ownerOf e.id ≠ tid)) ++ tankProjections t

/-- Modelled from the spec: `gameTick` for one session
(`server.js:203-205` delegates to `lib/gameLogicService.js`, which is
missing from `src/`): the rule engine `adv` rewrites the session's
tank (movement, firing, collision), ownership is restamped, and the
session's index entries are re-synchronised. -/
def advanceOne (adv : Nat → Tank → Tank) (s : ServerState) (tid : Nat) : ServerState :=
  match findConn s tid with
  | none => s
  | some cd =>
      let t := forceOwn tid (adv tid cd.tank)
      { s with
        connections := s.connections.map (fun c => if c.id = tid then { c with tank := t } else c)
        quadtree := reindexFor s.quadtree tid t }

/-- `gameObjectUpdater` (`server.js:212-217`): advance every registered
session, iterating the registry backwards. -/
def gameObjectUpdaterFn (adv : Nat → Tank → Tank) (s : ServerState) : ServerState :=
  s.registry.reverse.foldl (advanceOne adv) s

/-- The `ClientData` objects currently in the registry, in registry
order. -/
def registryClientDatas (s : ServerState) : List ClientData :=
  s.registry.filterMap (findConn s)

/-- `checkPing` (`server.js:192-197`): stamp `startPingTime` on every
registered session and emit a `pingcheck` probe to each. -/
def checkPingFn (now : Int) (s : ServerState) : ServerState × List Emission :=
  ({ s with
     connections := s.connections.map
       (fun c => if c.id ∈ s.registry then { c with startPingTime := some now } else c) },
   s.registry.map Emission.pingcheckMsg)

/-- `clientUpdater` (`server.js:222-269`): for every registered session
emit one `game_objects_update` message; the server state itself is not
modified. -/
def clientUpdaterEmissions (cfg : Config) (s : ServerState) : List Emission :=
  s.registry.filterMap (fun sid =>
    (findConn s sid).map (fun cd =>
      Emission.gameObjectsUpdate sid (buildSnapshot cfg s.scoreboardList s.quadtree cd)))

/-- The named top-level routines of `server.js` section 3. -/
inductive ServerRoutine where
  | checkPing
  | gameObjectUpdater
  | clientUpdater
  | updateScoreboard
deriving DecidableEq, Repr

/-- The periodic drivers registered by `setInterval` at
`server.js:285-291`, with their periods in milliseconds: the world
advance every 1000/60 ms, the broadcast every 1000/40 ms, and the
scoreboard refresh every 500 ms.  `checkPing` is defined in the source
but never scheduled. -/
def serverIntervals : List (ServerRoutine × ℚ) :=
  [(.gameObjectUpdater, 1000 / 60), (.clientUpdater, 1000 / 40), (.updateScoreboard, 500)]

/-- An event the server reacts to: a socket event of one connection, or
one firing of a named periodic routine (the world advance carries the
rule-engine advance function it delegates to). -/
inductive Event where
  | connect (sid : Nat) (spawn : Pos)
  | initMsg (sid : Nat) (name : String)
  | welcomeReceived (sid : Nat) (player : Player)
  | pongcheck (sid : Nat) (now : Int)
  | clientCheckin (sid : Nat) (input : UserInput) (now : Int)
  | windowResized (sid : Nat) (width height : Int)
  | disconnect (sid : Nat)
  | tick (r : ServerRoutine) (now : Int) (adv : Nat → Tank → Tank)

/-- One step of the server: dispatch one event against the handlers of
`server.js:84-182` or run one periodic routine, returning the next
state and the emissions sent to clients. -/
def step (cfg : Config) (s : ServerState) : Event → ServerState × List Emission
  | .connect sid spawn =>
      if (findConn s sid).isSome then (s, [])
      else ({ s with connections := s.connections ++ [newClientData cfg sid spawn] }, [])
  | .initMsg sid name =>
      match findConn s sid with
      | none => (s, [])
      | some cd =>
          let cd' := { cd with screenName := jsSubstring name 0 10 }
          (updConn s sid cd', [.welcome sid cd' cfg.gameWidth cfg.gameHeight])
  | .welcomeReceived sid player =>
      match findConn s sid with
      | none => (s, [])
      | some cd =>
          let cd' := { cd with player := player }
          ({ updConn s sid cd' with
             registry := s.registry ++ [sid]
             quadtree := putEntry s.quadtree cd'.tank.forQuadtree }, [])
  | .pongcheck sid now =>
      match findConn s sid with
      | none => (s, [])
      | some cd =>
          (updConn s sid { cd with ping := some (now - cd.startPingTime.getD 0) }, [])
  | .clientCheckin sid input now =>
      match findConn s sid with
      | none => (s, [])
      | some cd =>
          (updConn s sid
            { cd with
              player := { cd.player with userInput := some input }
              lastHeartbeat := some now }, [])
  | .windowResized sid width height =>
      match findConn s sid with
      | none => (s, [])
      | some cd =>
          (updConn s sid
            { cd with player := { cd.player with screenWidth := width, screenHeight := height } }, [])
  | .disconnect sid =>
      match findConn s sid with
      | none => (s, [])
      | some cd =>
          let qt1 := cd.tank.bullets.foldl (fun qt b => removeKeyless qt b.forQuadtree) s.quadtree
          let qt2 := removeById qt1 cd.tank.forQuadtree
          ({ s with
             quadtree := qt2
             registry := s.registry.erase sid
             connections := s.connections.filter (fun c => decide (c.id ≠ sid)) }, [])
  | .tick r now adv =>
      match r with
      | .checkPing => checkPingFn now s
      | .gameObjectUpdater => (gameObjectUpdaterFn adv s, [])
      | .clientUpdater => (s, clientUpdaterEmissions cfg s)
      | .updateScoreboard =>
          ({ s with scoreboardList := updateScoreboard (registryClientDatas s) cfg.scoreBoardLength }, [])

/-- Run a sequence of events from a state, discarding emissions. -/
def run (cfg : Config) (s : ServerState) (evs : List Event) : ServerState :=
  evs.foldl (fun s e => (step cfg s e).1) s

/-- Whether an event is a firing of the scoreboard-refresh driver. -/
def isScoreboardTick : Event → Bool
  | .tick .updateScoreboard _ _ => true
  | _ => false

/-- Whether an event is the handshake acknowledgment of session `sid`. -/
def isWelcomeFor (sid : Nat) : Event → Bool
  | .welcomeReceived tid _ => tid == sid
  | _ => false

/-- The removal calls the disconnect handler issues against the
quadtree, in source order (`server.js:144-151`): one keyless
`remove(bullet.forQuadtree())` per owned bullet, then
`remove(tank.forQuadtree(), 'id')` with the explicit identity key. -/
structure RemoveCall where
  entry : QtEntry
  key : Option String
deriving DecidableEq, Repr

/-- The list of removal calls `socket.on('disconnect')` performs for a
session (`server.js:144-151`). -/
def disconnectRemoveCalls (cd : ClientData) : List RemoveCall :=
  cd.tank.bullets.map (fun b => { entry := b.forQuadtree, key := none }) ++
    [{ entry := cd.tank.forQuadtree, key := some "id" }]

/-- A sample configuration (world 500 by 500, ammo capacity 10,
scoreboard length 5) used for concrete evaluations. -/
def cfg0 : Config :=
  { gameWidth := 500, gameHeight := 500, tankAmmoCapacity := 10, scoreBoardLength := 5 }

/-- A sample player sub-object with a 100 by 100 viewport. -/
def player0 : Player :=
  { screenName := "alice", screenWidth := 100, screenHeight := 100, userInput := none }

/-- A sample bullet owned by session 1. -/
def bullet0 : Bullet := { sid := 1, serial := 0, box := ⟨3, 3, 1, 1⟩ }

/-- A sample tank of session 1 owning one bullet, with 7 of 10 rounds
left and 5 kills. -/
def tank0 : Tank :=
  { sid := 1, screenName := "alice", kills := 5, ammo := 7
    box := ⟨0, 0, 1, 1⟩, bullets := [bullet0] }

/-- A sample fully active session. -/
def clientData0 : ClientData :=
  { id := 1, screenName := "alice", position := ⟨0, 0⟩, player := player0
    tank := tank0, startPingTime := none, ping := none, lastHeartbeat := none }

/-- A sample server state with session 1 active, its tank and bullet
indexed, and a non-empty cached scoreboard. -/
def state0 : ServerState :=
  { connections := [clientData0]
    registry := [1]
    quadtree := [tank0.forQuadtree, bullet0.forQuadtree]
    scoreboardList := [{ screenName := "alice", kills := 5 }] }

/-- A second sample session with 9 kills, for scoreboard evaluations. -/
def clientData1 : ClientData :=
  { id := 2, screenName := "bob", position := ⟨9, 9⟩
    player := { screenName := "bob", screenWidth := 80, screenHeight := 60, userInput := none }
    tank := { sid := 2, screenName := "bob", kills := 9, ammo := 10
              box := ⟨9, 9, 1, 1⟩, bullets := [] }
    startPingTime := none, ping := none, lastHeartbeat := none }

/-- A sample event trace: session 1 connects, names itself and completes
the handshake. -/
def trace0 : List Event :=
  [.connect 1 ⟨0, 0⟩, .initMsg 1 "alice", .welcomeReceived 1 player0]

/-- A sample event trace ending with a duplicated handshake
acknowledgment for session 1. -/
def traceDupAck : List Event :=
  [.connect 1 ⟨0, 0⟩, .initMsg 1 "alice",
   .welcomeReceived 1 player0, .welcomeReceived 1 player0]

/-! ### Supporting lemmas -/

/-- Updating the found connection by an update that keeps its id makes
the lookup return the updated record. -/
lemma find?_map_update (l : List ClientData) (sid : Nat) (cd cd' : ClientData)
    (h : l.find? (fun c => c.id == sid) = some cd) (hid : cd'.id = sid) :
    (l.map (fun c => if c.id = sid then cd' else c)).find? (fun c => c.id == sid) = some cd' := by
  induction l with
  | nil => simp at h
  | cons x xs ih =>
      by_cases hx : x.id = sid
      · simp only [List.map_cons, if_pos hx]
        exact List.find?_cons_of_pos _ (by simp [hid])
      · simp only [List.map_cons, if_neg hx]
        rw [List.find?_cons_of_neg _ (by simp [hx])]
        rw [List.find?_cons_of_neg _ (by simp [hx])] at h
        exact ih h

/-- `findConn` after `updConn` at the same id. -/
lemma findConn_updConn (s : ServerState) (sid : Nat) (cd cd' : ClientData)
    (h : findConn s sid = some cd) (hid : cd'.id = sid) :
    findConn (updConn s sid cd') sid = some cd' :=
  find?_map_update s.connections sid cd cd' h hid

/-- The found connection is a member of the connection list with the
looked-up id. -/
lemma findConn_mem_id (s : ServerState) (sid : Nat) (cd : ClientData)
    (h : findConn s sid = some cd) : cd ∈ s.connections ∧ cd.id = sid := by
  refine ⟨List.mem_of_find?_eq_some h, ?_⟩
  have := List.find?_some h
  simpa using this

/-- Membership after folding the keyless bullet removals of the
disconnect handler over the index. -/
lemma mem_foldl_removeKeyless (bs : List Bullet) :
    ∀ (qt : List QtEntry) (e : QtEntry),
      e ∈ bs.foldl (fun qt b => removeKeyless qt b.forQuadtree) qt ↔
        e ∈ qt ∧ ∀ b ∈ bs, e ≠ b.forQuadtree := by
  induction bs with
  | nil => intro qt e; simp
  | cons b bs ih =>
      intro qt e
      rw [List.foldl_cons, ih]
      simp only [removeKeyless, List.mem_filter, List.mem_cons, decide_eq_true_eq]
      constructor
      · rintro ⟨⟨he, hb⟩, hbs⟩
        exact ⟨he, fun b' hb' => hb'.elim (fun h => h ▸ hb) (fun h => hbs b' h)⟩
      · rintro ⟨he, hall⟩
        exact ⟨⟨he, hall b (Or.inl rfl)⟩, fun b' hb' => hall b' (Or.inr hb')⟩

/-- A filter over a list where every element satisfies the predicate is
the list itself. -/
lemma filter_self_of_forall {α : Type} (p : α → Bool) (l : List α)
    (h : ∀ a ∈ l, p a = true) : l.filter p = l :=
  List.filter_eq_self.mpr h

/-! ### C4: missing display name in the handshake-init message -/

/-- C4: the claim says a handshake-init message with no display name is
ignored and never throws; the handler at `server.js:104` instead
evaluates `screenName.substring(0,10)` with `screenName` equal to
`undefined`, which raises a `TypeError` — the claim fails on the code.
The checkin handler, by contrast, absorbs a missing payload. -/
theorem init_missing_name_throws :
    initHandlerJs cfg0 clientData0 none = Except.error JsError.typeErrorUndefined ∧
    checkinHandlerJs clientData0 none 0 =
      Except.ok { clientData0 with
                  player := { clientData0.player with userInput := none }
                  lastHeartbeat := some 0 } :=
  ⟨rfl, rfl⟩

/-! ### C6: display name truncation -/

/-- C6: for every handshake-init message the stored display name is the
supplied name truncated to its first 10 characters
(`screenName.substring(0,10)` at `server.js:104`); a 15-character
input therefore yields a stored name of exactly 10 characters. -/
theorem init_truncates_name (cfg : Config) (s : ServerState) (sid : Nat)
    (name : String) (cd : ClientData) (h : findConn s sid = some cd) :
    findConn (step cfg s (.initMsg sid name)).1 sid =
      some { cd with screenName := jsSubstring name 0 10 } ∧
    (jsSubstring name 0 10).data = name.data.take 10 ∧
    (name.length = 15 → (jsSubstring name 0 10).length = 10) := by
  have key : ∀ (l : List Char), l.take (min 10 l.length) = l.take 10 := by
    intro l
    rcases le_total l.length 10 with hle | hle
    · rw [min_eq_right hle, List.take_length, List.take_of_length_le hle]
    · rw [min_eq_left hle]
  have hdata : (jsSubstring name 0 10).data = name.data.take 10 := by
    show (name.data.drop (min (min 0 name.length) (min 10 name.length))).take
        (max (min 0 name.length) (min 10 name.length) -
          min (min 0 name.length) (min 10 name.length)) = name.data.take 10
    simp only [Nat.zero_min, Nat.zero_max, Nat.sub_zero, List.drop_zero]
    exact key name.data
  refine ⟨?_, hdata, ?_⟩
  · have hid : ({ cd with screenName := jsSubstring name 0 10 } : ClientData).id = sid :=
      (findConn_mem_id s sid cd h).2
    simp only [step, h]
    exact findConn_updConn s sid cd _ h hid
  · intro h15
    show (jsSubstring name 0 10).data.length = 10
    rw [hdata, List.length_take]
    have hlen15 : name.data.length = 15 := h15
    rw [hlen15]
    decide

/-- Witness for C6 at a concrete 15-character name. -/
theorem init_truncates_name_witness :
    findConn state0 1 = some clientData0 ∧
    (findConn (step cfg0 state0 (.initMsg 1 "abcdefghijklmno")).1 1 =
        some { clientData0 with screenName := jsSubstring "abcdefghijklmno" 0 10 } ∧
      (jsSubstring "abcdefghijklmno" 0 10).data = "abcdefghijklmno".data.take 10 ∧
      ("abcdefghijklmno".length = 15 → (jsSubstring "abcdefghijklmno" 0 10).length = 10)) :=
  ⟨rfl, init_truncates_name cfg0 state0 1 "abcdefghijklmno" clientData0 rfl⟩

/-! ### C8: identity keys of the disconnect removals -/

/-- C8 counterexample: the claim says both the tank removal and each
bullet removal on disconnect pass an explicit entity-identity key; at
`server.js:145` the bullet removal passes no key, so for a session
owning one bullet the claim fails. -/
theorem disconnect_bullet_removal_keyless :
    ({ entry := bullet0.forQuadtree, key := none } : RemoveCall) ∈
      disconnectRemoveCalls clientData0 ∧
    ¬ (∀ c ∈ disconnectRemoveCalls clientData0, c.key ≠ none) := by
  decide

/-- C8 amended: every removal the disconnect handler issues either
carries the explicit `'id'` identity key and targets the tank entry
(`server.js:151`), or carries no key at all and targets one owned
bullet's projection (`server.js:145`). -/
theorem disconnect_removal_keys (cd : ClientData) :
    ({ entry := cd.tank.forQuadtree, key := some "id" } : RemoveCall) ∈
      disconnectRemoveCalls cd ∧
    ∀ c ∈ disconnectRemoveCalls cd,
      (c.key = some "id" ∧ c.entry = cd.tank.forQuadtree) ∨
      (c.key = none ∧ c.entry ∈ cd.tank.bullets.map Bullet.forQuadtree) := by
  constructor
  · simp [disconnectRemoveCalls]
  · intro c hc
    simp only [disconnectRemoveCalls, List.mem_append, List.mem_map,
      List.mem_singleton] at hc
    rcases hc with ⟨b, hb, rfl⟩ | rfl
    · exact Or.inr ⟨rfl, List.mem_map.mpr ⟨b, hb, rfl⟩⟩
    · exact Or.inl ⟨rfl, rfl⟩

/-- Witness for C8's amended statement at a concrete session, with the
inner quantifier instantiated at the concrete bullet removal call. -/
theorem disconnect_removal_keys_witness :
    (({ entry := clientData0.tank.forQuadtree, key := some "id" } : RemoveCall) ∈
        disconnectRemoveCalls clientData0) ∧
    ((({ entry := bullet0.forQuadtree, key := none } : RemoveCall).key = some "id" ∧
        ({ entry := bullet0.forQuadtree, key := none } : RemoveCall).entry =
          clientData0.tank.forQuadtree) ∨
      (({ entry := bullet0.forQuadtree, key := none } : RemoveCall).key = none ∧
        ({ entry := bullet0.forQuadtree, key := none } : RemoveCall).entry ∈
          clientData0.tank.bullets.map Bullet.forQuadtree)) :=
  ⟨(disconnect_removal_keys clientData0).1,
   (disconnect_removal_keys clientData0).2 _ (by decide)⟩

/-! ### C3: field order of the world snapshot -/

/-- C3: the claim says the snapshot field order is enforced
structurally; the code at `server.js:259-267` only fixes the
`Object.assign` insertion order (first conjunct), while the
serializer model licensed by the source's own comment at
`server.js:250-258` admits a wire ordering — here the reversed list —
that is a valid permutation of the same message but violates the
required order, so the ordering is not structurally enforced. -/
theorem snapshot_field_order_not_structural :
    (buildSnapshot cfg0 state0.scoreboardList state0.quadtree clientData0).map fieldKind =
      canonicalFieldOrder ∧
    validWireOrder (buildSnapshot cfg0 state0.scoreboardList state0.quadtree clientData0)
      (buildSnapshot cfg0 state0.scoreboardList state0.quadtree clientData0).reverse ∧
    (buildSnapshot cfg0 state0.scoreboardList state0.quadtree clientData0).reverse.map
        fieldKind ≠ canonicalFieldOrder := by
  refine ⟨by decide, List.reverse_perm _, by decide⟩

/-! ### C5: duplicated handshake acknowledgment -/

/-- C5: the claim says that after a repeated handshake-ack the session
still occupies exactly one registry slot and its tank exactly one
index entry; running the handler at `server.js:112-122` twice instead
pushes the session a second time and indexes the tank a second time
(two slots, two entries), though no error is raised. -/
theorem duplicate_ack_duplicates_registration :
    (run cfg0 initialState traceDupAck).registry.count 1 = 2 ∧
    ((run cfg0 initialState traceDupAck).quadtree.filter
        (fun e => decide (ownerOf e.id = 1))).length = 2 := by
  decide

/-! ### C2: scoreboard top-K selection -/

/-- Descending kill order between tanks: the earlier one has at least as
many kills. -/
def killsGe (a b : Tank) : Prop := b.kills ≤ a.kills

/-- Inserting into the descending list is a permutation of consing. -/
lemma insertDesc_perm (t : Tank) (l : List Tank) : (insertDesc t l).Perm (t :: l) := by
  induction l with
  | nil => exact List.Perm.refl _
  | cons y ys ih =>
      by_cases hc : t.kills ≤ y.kills
      · simp only [insertDesc, if_pos hc]
        exact (ih.cons y).trans (List.Perm.swap t y ys)
      · simp only [insertDesc, if_neg hc]
        exact List.Perm.refl _

/-- The stable descending sort permutes its input. -/
lemma sortKillsDesc_perm (l : List Tank) : (sortKillsDesc l).Perm l := by
  suffices h : ∀ (l acc : List Tank),
      (l.foldl (fun acc t => insertDesc t acc) acc).Perm (acc ++ l) by
    simpa using h l []
  intro l
  induction l with
  | nil => intro acc; simp
  | cons t ts ih =>
      intro acc
      rw [List.foldl_cons]
      refine (ih (insertDesc t acc)).trans ?_
      refine (List.Perm.append_right ts (insertDesc_perm t acc)).trans ?_
      exact List.perm_middle.symm

/-- Inserting into a list sorted in descending kill order keeps it
sorted. -/
lemma insertDesc_pairwise (t : Tank) (l : List Tank) (h : l.Pairwise killsGe) :
    (insertDesc t l).Pairwise killsGe := by
  induction l with
  | nil => simp [insertDesc, List.pairwise_cons]
  | cons y ys ih =>
      rcases List.pairwise_cons.mp h with ⟨h1, h2⟩
      by_cases hc : t.kills ≤ y.kills
      · simp only [insertDesc, if_pos hc]
        refine List.pairwise_cons.mpr ⟨?_, ih h2⟩
        intro z hz
        rcases List.mem_cons.mp ((insertDesc_perm t ys).mem_iff.mp hz) with hz | hz
        · exact hz ▸ hc
        · exact h1 z hz
      · simp only [insertDesc, if_neg hc]
        refine List.pairwise_cons.mpr ⟨?_, h⟩
        intro z hz
        rcases List.mem_cons.mp hz with hz | hz
        · exact hz ▸ le_of_lt (lt_of_not_le hc)
        · exact le_trans (h1 z hz) (le_of_lt (lt_of_not_le hc))

/-- The stable descending sort is sorted in descending kill order. -/
lemma sortKillsDesc_pairwise (l : List Tank) : (sortKillsDesc l).Pairwise killsGe := by
  suffices h : ∀ (l acc : List Tank), acc.Pairwise killsGe →
      (l.foldl (fun acc t => insertDesc t acc) acc).Pairwise killsGe from
    h l [] List.Pairwise.nil
  intro l
  induction l with
  | nil => intro acc hacc; exact hacc
  | cons t ts ih =>
      intro acc hacc
      rw [List.foldl_cons]
      exact ih _ (insertDesc_pairwise t acc hacc)

/-- Truncating before or after a bounded insertion gives the same
truncation: the bounded top-`n` buffer loses nothing that the full
sorted list would keep among its first `n`. -/
lemma take_insertDesc_take (t : Tank) :
    ∀ (l : List Tank) (n : Nat),
      (insertDesc t (l.take n)).take n = (insertDesc t l).take n := by
  intro l
  induction l with
  | nil =>
      intro n
      rw [List.take_nil]
  | cons y ys ih =>
      intro n
      match n with
      | 0 => rfl
      | Nat.succ m =>
          rw [List.take_succ_cons]
          by_cases hc : t.kills ≤ y.kills
          · simp only [insertDesc, if_pos hc]
            rw [List.take_succ_cons, List.take_succ_cons, ih m]
          · simp only [insertDesc, if_neg hc]
            rw [List.take_succ_cons, List.take_succ_cons]
            congr 1
            match m with
            | 0 => rfl
            | Nat.succ k =>
                rw [List.take_succ_cons, List.take_succ_cons, List.take_take]
                congr 2
                omega

/-- The bounded selection of `nlargest` equals truncating the full
stable descending sort. -/
lemma nlargest_eq_take_sort (l : List Tank) (n : Nat) :
    nlargest l n = (sortKillsDesc l).take n := by
  suffices h : ∀ (l acc : List Tank),
      l.foldl (fun acc t => (insertDesc t acc).take n) (acc.take n) =
        (l.foldl (fun acc t => insertDesc t acc) acc).take n by
    have := h l []
    simpa [nlargest, sortKillsDesc] using this
  intro l
  induction l with
  | nil => intro acc; rfl
  | cons t ts ih =>
      intro acc
      rw [List.foldl_cons, List.foldl_cons, take_insertDesc_take t acc n, ih (insertDesc t acc)]

/-- Inserting grows the length by one. -/
lemma insertDesc_length (t : Tank) (l : List Tank) :
    (insertDesc t l).length = l.length + 1 := by
  induction l with
  | nil => rfl
  | cons y ys ih =>
      by_cases hc : t.kills ≤ y.kills
      · simp [insertDesc, if_pos hc, ih]
      · simp [insertDesc, if_neg hc]

/-- The stable descending sort preserves length. -/
lemma sortKillsDesc_length (l : List Tank) : (sortKillsDesc l).length = l.length :=
  (sortKillsDesc_perm l).length_eq

/-- C2: the scoreboard refresh (`server.js:271-277`) produces exactly
the first `min(session count, configured scoreboard length)` tanks of
the stable descending sort by kill count, snapshotted as
(display name, kill count) value pairs; the sort permutes the input
tanks and is sorted by descending kills with ties kept in input order,
and when the configured length exceeds the session count the output
length equals the session count. -/
theorem scoreboard_top_k (cds : List ClientData) (k : Nat) :
    updateScoreboard cds k =
      ((sortKillsDesc (cds.map (fun cd => cd.tank))).take (min cds.length k)).map
        (fun t => { screenName := t.screenName, kills := t.kills }) ∧
    (sortKillsDesc (cds.map (fun cd => cd.tank))).Perm (cds.map (fun cd => cd.tank)) ∧
    (sortKillsDesc (cds.map (fun cd => cd.tank))).Pairwise killsGe ∧
    (updateScoreboard cds k).length = min cds.length k ∧
    (cds.length < k → (updateScoreboard cds k).length = cds.length) := by
  have hlen : (updateScoreboard cds k).length = min cds.length k := by
    rw [updateScoreboard, List.length_map, nlargest_eq_take_sort, List.length_take,
      sortKillsDesc_length, List.length_map]
    exact min_eq_left (min_le_left _ _)
  refine ⟨?_, sortKillsDesc_perm _, sortKillsDesc_pairwise _, hlen, ?_⟩
  · rw [updateScoreboard, nlargest_eq_take_sort]
  · intro hk
    rw [hlen, min_eq_left (le_of_lt hk)]

/-- Witness for C2 with two sessions (5 and 9 kills) and configured
length 5: the bound exceeds the session count, so the output length is
the session count. -/
theorem scoreboard_top_k_witness :
    [clientData0, clientData1].length < 5 ∧
    (updateScoreboard [clientData0, clientData1] 5).length = [clientData0, clientData1].length :=
  ⟨by decide, (scoreboard_top_k [clientData0, clientData1] 5).2.2.2.2 (by decide)⟩

/-! ### C1: disconnect atomicity -/

/-- C1: when an active session's transport disconnects, the handler at
`server.js:137-163` removes every index entry owned by that session —
each bullet by its projection, the tank by its identity key — and
erases the session from the registry, so every subsequent quadtree
query (in particular any world-covering one) returns zero entries
referencing the session's tank or bullets.  The hypotheses say the
session is connected, its index entries are in sync with its live
entities (the invariant of spec section 3), and it occupies at most
one registry slot. -/
theorem disconnect_atomicity (cfg : Config) (s : ServerState) (sid : Nat) (cd : ClientData)
    (hfind : findConn s sid = some cd)
    (hsync : ∀ e ∈ s.quadtree, ownerOf e.id = sid →
      e = cd.tank.forQuadtree ∨ e ∈ cd.tank.bullets.map Bullet.forQuadtree)
    (hreg : s.registry.count sid ≤ 1) :
    sid ∉ (step cfg s (.disconnect sid)).1.registry ∧
    ∀ (b : Box) (e : QtEntry),
      e ∈ query (step cfg s (.disconnect sid)).1.quadtree b → ownerOf e.id ≠ sid := by
  simp only [step, hfind]
  constructor
  · have hcount : (s.registry.erase sid).count sid = 0 := by
      rw [List.count_erase_self]
      omega
    exact List.count_eq_zero.mp hcount
  · intro b e he hown
    have he' : e ∈ removeById
        (cd.tank.bullets.foldl (fun qt b => removeKeyless qt b.forQuadtree) s.quadtree)
        cd.tank.forQuadtree := (List.mem_filter.mp he).1
    rcases List.mem_filter.mp he' with ⟨he1, hid⟩
    have hid' : e.id ≠ cd.tank.forQuadtree.id := by simpa using hid
    rcases (mem_foldl_removeKeyless cd.tank.bullets s.quadtree e).mp he1 with ⟨hmem, hnb⟩
    rcases hsync e hmem hown with htank | hbul
    · exact hid' (congrArg QtEntry.id htank)
    · rcases List.mem_map.mp hbul with ⟨b', hb', rfl⟩
      exact hnb b' hb' rfl

/-- Witness for C1 at a concrete active session (one tank, one bullet,
both indexed): after the disconnect the registry no longer holds the
session and a world-covering query is empty. -/
theorem disconnect_atomicity_witness :
    1 ∉ (step cfg0 state0 (.disconnect 1)).1.registry ∧
    query (step cfg0 state0 (.disconnect 1)).1.quadtree ⟨0, 0, 500, 500⟩ = [] :=
  ⟨(disconnect_atomicity cfg0 state0 1 clientData0 rfl (by decide) (by decide)).1,
   by decide⟩

/-! ### C9: no periodic driver pings -/

/-- The outstanding-ping start time recorded for a session, if the
session is connected. -/
def startPingOf (s : ServerState) (sid : Nat) : Option (Option Int) :=
  (findConn s sid).map (fun cd => cd.startPingTime)

/-- Looking through a map whose function preserves ids and
`startPingTime` preserves the recorded start time. -/
lemma find?_map_startPing (l : List ClientData) (sid : Nat) (f : ClientData → ClientData)
    (hid : ∀ c, (f c).id = c.id) (hsp : ∀ c, (f c).startPingTime = c.startPingTime) :
    ((l.map f).find? (fun c => c.id == sid)).map (fun cd => cd.startPingTime) =
      (l.find? (fun c => c.id == sid)).map (fun cd => cd.startPingTime) := by
  induction l with
  | nil => rfl
  | cons x xs ih =>
      by_cases hx : x.id = sid
      · rw [List.map_cons, List.find?_cons_of_pos _ (by simp [hid, hx]),
          List.find?_cons_of_pos _ (by simp [hx])]
        simp [hsp]
      · rw [List.map_cons, List.find?_cons_of_neg _ (by simp [hid, hx]),
          List.find?_cons_of_neg _ (by simp [hx])]
        exact ih

/-- One spec-modelled world advance of a single session does not touch
any session's outstanding-ping start time. -/
lemma startPingOf_advanceOne (adv : Nat → Tank → Tank) (s : ServerState) (tid sid : Nat) :
    startPingOf (advanceOne adv s tid) sid = startPingOf s sid := by
  unfold advanceOne
  cases hfind : findConn s tid with
  | none => rfl
  | some cd =>
      unfold startPingOf findConn
      exact find?_map_startPing s.connections sid _
        (by intro c; by_cases hc : c.id = tid <;> simp [hc])
        (by intro c; by_cases hc : c.id = tid <;> simp [hc])

/-- The whole world-advance driver does not touch any session's
outstanding-ping start time. -/
lemma startPingOf_gameObjectUpdater (adv : Nat → Tank → Tank) (s : ServerState) (sid : Nat) :
    startPingOf (gameObjectUpdaterFn adv s) sid = startPingOf s sid := by
  unfold gameObjectUpdaterFn
  generalize s.registry.reverse = tids
  induction tids generalizing s with
  | nil => rfl
  | cons tid tids ih =>
      rw [List.foldl_cons, ih, startPingOf_advanceOne]

/-- C9: `checkPing` is not among the routines scheduled by
`setInterval` at `server.js:285-291`, and no scheduled routine ever
modifies a session's outstanding-ping start time or emits the
`pingcheck` message — so `startPingTime` is only ever set by an
explicit `checkPing` call, which no scheduler performs. -/
theorem no_scheduled_ping (p : ServerRoutine × ℚ) (hp : p ∈ serverIntervals) :
    p.1 ≠ ServerRoutine.checkPing ∧
    ∀ (cfg : Config) (s : ServerState) (now : Int) (adv : Nat → Tank → Tank) (sid : Nat),
      startPingOf (step cfg s (.tick p.1 now adv)).1 sid = startPingOf s sid ∧
      Emission.pingcheckMsg sid ∉ (step cfg s (.tick p.1 now adv)).2 := by
  simp only [serverIntervals, List.mem_cons, List.not_mem_nil, or_false] at hp
  rcases hp with rfl | rfl | rfl
  · refine ⟨by simp, ?_⟩
    intro cfg s now adv sid
    exact ⟨startPingOf_gameObjectUpdater adv s sid, by simp [step]⟩
  · refine ⟨by simp, ?_⟩
    intro cfg s now adv sid
    refine ⟨rfl, ?_⟩
    intro hmem
    simp only [step, clientUpdaterEmissions, List.mem_filterMap] at hmem
    rcases hmem with ⟨tid, _, hopt⟩
    cases hfind : findConn s tid with
    | none => rw [hfind] at hopt; simp at hopt
    | some cd => rw [hfind] at hopt; simp at hopt
  · refine ⟨by simp, ?_⟩
    intro cfg s now adv sid
    exact ⟨rfl, by simp [step]⟩

/-- Witness for C9 at the scheduled broadcast driver and a concrete
state. -/
theorem no_scheduled_ping_witness :
    (ServerRoutine.clientUpdater, (1000 : ℚ) / 40) ∈ serverIntervals ∧
    (startPingOf (step cfg0 state0
        (.tick ServerRoutine.clientUpdater 0 (fun _ t => t))).1 1 = startPingOf state0 1 ∧
      Emission.pingcheckMsg 1 ∉
        (step cfg0 state0 (.tick ServerRoutine.clientUpdater 0 (fun _ t => t))).2) := by
  have hp : (ServerRoutine.clientUpdater, (1000 : ℚ) / 40) ∈ serverIntervals := by
    simp [serverIntervals]
  exact ⟨hp, (no_scheduled_ping _ hp).2 cfg0 state0 0 (fun _ t => t) 1⟩

/-! ### C10: scoreboard before the first refresh -/

/-- One spec-modelled single-session advance leaves the cached
scoreboard untouched. -/
lemma scoreboardList_advanceOne (adv : Nat → Tank → Tank) (s : ServerState) (tid : Nat) :
    (advanceOne adv s tid).scoreboardList = s.scoreboardList := by
  unfold advanceOne
  cases findConn s tid with
  | none => rfl
  | some cd => rfl

/-- Any event other than a scoreboard-refresh tick leaves the cached
scoreboard untouched. -/
lemma scoreboardList_step (cfg : Config) (s : ServerState) (e : Event)
    (h : isScoreboardTick e = false) :
    (step cfg s e).1.scoreboardList = s.scoreboardList := by
  cases e with
  | connect sid spawn =>
      by_cases hc : (findConn s sid).isSome <;> simp [step, hc]
  | initMsg sid name =>
      cases hfind : findConn s sid <;> simp [step, hfind, updConn]
  | welcomeReceived sid player =>
      cases hfind : findConn s sid <;> simp [step, hfind, updConn]
  | pongcheck sid now =>
      cases hfind : findConn s sid <;> simp [step, hfind, updConn]
  | clientCheckin sid input now =>
      cases hfind : findConn s sid <;> simp [step, hfind, updConn]
  | windowResized sid width height =>
      cases hfind : findConn s sid <;> simp [step, hfind, updConn]
  | disconnect sid =>
      cases hfind : findConn s sid <;> simp [step, hfind]
  | tick r now adv =>
      cases r with
      | checkPing => rfl
      | gameObjectUpdater =>
          show (gameObjectUpdaterFn adv s).scoreboardList = s.scoreboardList
          unfold gameObjectUpdaterFn
          generalize s.registry.reverse = tids
          induction tids generalizing s with
          | nil => rfl
          | cons tid tids ih =>
              rw [List.foldl_cons, ih, scoreboardList_advanceOne]
      | clientUpdater => rfl
      | updateScoreboard => simp [isScoreboardTick] at h

/-- Before the first scoreboard-refresh tick, the cached scoreboard is
still the empty list it was initialised to. -/
lemma scoreboardList_run_nil (cfg : Config) (evs : List Event) (s : ServerState)
    (hs : s.scoreboardList = []) (h : ∀ e ∈ evs, isScoreboardTick e = false) :
    (run cfg s evs).scoreboardList = [] := by
  induction evs generalizing s with
  | nil => exact hs
  | cons e es ih =>
      show (run cfg (step cfg s e).1 es).scoreboardList = []
      refine ih (step cfg s e).1 ?_ (fun e' he' => h e' (List.mem_cons_of_mem e he'))
      rw [scoreboardList_step cfg s e (h e (List.mem_cons_self e es)), hs]

/-- C10: every broadcast tick that runs before the first
scoreboard-refresh tick attaches the empty scoreboard to every
emitted world-snapshot message (the cache is initialised empty at
`server.js:70` and replaced only by `updateScoreboard`,
`server.js:291`); the message keeps the canonical field order with the
scoreboard field last. -/
theorem broadcast_scoreboard_empty_before_refresh (cfg : Config) (evs : List Event)
    (now : Int) (adv : Nat → Tank → Tank) (sid : Nat) (msg : List SnapshotField)
    (hnev : ∀ e ∈ evs, isScoreboardTick e = false)
    (hmem : Emission.gameObjectsUpdate sid msg ∈
      (step cfg (run cfg initialState evs) (.tick .clientUpdater now adv)).2) :
    msg.getLast? = some (.scoreboard []) ∧ msg.map fieldKind = canonicalFieldOrder := by
  have hsb : (run cfg initialState evs).scoreboardList = [] :=
    scoreboardList_run_nil cfg evs initialState rfl hnev
  simp only [step, clientUpdaterEmissions, List.mem_filterMap] at hmem
  rcases hmem with ⟨tid, _, hopt⟩
  cases hfind : findConn (run cfg initialState evs) tid with
  | none => rw [hfind] at hopt; simp at hopt
  | some cd =>
      rw [hfind] at hopt
      simp only [Option.map_some', Option.some_inj, Emission.gameObjectsUpdate.injEq] at hopt
      rcases hopt with ⟨rfl, rfl⟩
      rw [hsb]
      exact ⟨rfl, rfl⟩

/-- Witness for C10: a concrete trace with no scoreboard tick, whose
broadcast message for session 1 carries the empty scoreboard last. -/
theorem broadcast_scoreboard_witness :
    (buildSnapshot cfg0 (run cfg0 initialState trace0).scoreboardList
        (run cfg0 initialState trace0).quadtree
        ((findConn (run cfg0 initialState trace0) 1).getD clientData0)).getLast? =
      some (.scoreboard []) ∧
    (buildSnapshot cfg0 (run cfg0 initialState trace0).scoreboardList
        (run cfg0 initialState trace0).quadtree
        ((findConn (run cfg0 initialState trace0) 1).getD clientData0)).map fieldKind =
      canonicalFieldOrder :=
  broadcast_scoreboard_empty_before_refresh cfg0 trace0 0 (fun _ t => t) 1
    (buildSnapshot cfg0 (run cfg0 initialState trace0).scoreboardList
      (run cfg0 initialState trace0).quadtree
      ((findConn (run cfg0 initialState trace0) 1).getD clientData0))
    (by decide) (by decide)

/-! ### C7: pre-handshake isolation -/

/-- A session that never completed the handshake is untracked: it is
not in the registry, owns no quadtree entry, and every connection
record carries a tank stamped with its own id, with no bullets for the
untracked session's record. -/
def untracked (sid : Nat) (s : ServerState) : Prop :=
  sid ∉ s.registry ∧
  (∀ e ∈ s.quadtree, ownerOf e.id ≠ sid) ∧
  (∀ cd ∈ s.connections, cd.tank.sid = cd.id ∧ (cd.id = sid → cd.tank.bullets = []))

/-- Replacing a connection record by one with the same id and the same
tank preserves untrackedness. -/
lemma untracked_updConn (s : ServerState) (sid tgt : Nat) (cd cd' : ClientData)
    (hfind : findConn s tgt = some cd)
    (htank : cd'.tank = cd.tank) (hid : cd'.id = cd.id)
    (hu : untracked sid s) : untracked sid (updConn s tgt cd') := by
  obtain ⟨h1, h2, h3⟩ := hu
  refine ⟨h1, h2, ?_⟩
  intro c' hc'
  rcases List.mem_map.mp hc' with ⟨c, hc, rfl⟩
  by_cases hct : c.id = tgt
  · have hcd := h3 cd (findConn_mem_id s tgt cd hfind).1
    simp only [if_pos hct]
    refine ⟨by rw [htank, hid]; exact hcd.1, ?_⟩
    intro hsid
    rw [htank]
    exact hcd.2 (hid.symm.trans hsid)
  · simp only [if_neg hct]
    exact h3 c hc

/-- One spec-modelled single-session advance of a session other than
`sid` preserves untrackedness of `sid`. -/
lemma untracked_advanceOne (sid tid : Nat) (adv : Nat → Tank → Tank) (s : ServerState)
    (hu : untracked sid s) (hne : tid ≠ sid) : untracked sid (advanceOne adv s tid) := by
  obtain ⟨h1, h2, h3⟩ := hu
  unfold advanceOne
  cases hfind : findConn s tid with
  | none => exact ⟨h1, h2, h3⟩
  | some cd =>
      refine ⟨h1, ?_, ?_⟩
      · intro e he
        rcases List.mem_append.mp he with he | he
        · exact h2 e (List.mem_filter.mp he).1
        · rcases List.mem_cons.mp he with rfl | he
          · simpa [Tank.forQuadtree, forceOwn, ownerOf] using hne
          · rcases List.mem_map.mp he with ⟨b, hb, rfl⟩
            rcases List.mem_map.mp (by simpa [forceOwn] using hb) with ⟨b', _, rfl⟩
            simpa [Bullet.forQuadtree, ownerOf] using hne
      · intro c' hc'
        rcases List.mem_map.mp hc' with ⟨c, hc, rfl⟩
        by_cases hct : c.id = tid
        · simp only [if_pos hct]
          refine ⟨by simp [forceOwn, hct], ?_⟩
          intro hsid
          exact absurd (hct ▸ hsid) hne
        · simp only [if_neg hct]
          exact h3 c hc

/-- The whole world-advance driver preserves untrackedness: it only
touches registered sessions. -/
lemma untracked_fold_advance (sid : Nat) (adv : Nat → Tank → Tank) :
    ∀ (tids : List Nat) (s : ServerState), untracked sid s →
      (∀ tid ∈ tids, tid ≠ sid) → untracked sid (tids.foldl (advanceOne adv) s) := by
  intro tids
  induction tids with
  | nil => intro s hu _; exact hu
  | cons tid tids ih =>
      intro s hu hne
      rw [List.foldl_cons]
      exact ih _ (untracked_advanceOne sid tid adv s hu (hne tid (List.mem_cons_self tid tids)))
        (fun t ht => hne t (List.mem_cons_of_mem tid ht))

/-- Every event except the handshake acknowledgment of `sid` itself
preserves untrackedness of `sid`. -/
lemma untracked_step (cfg : Config) (sid : Nat) (s : ServerState) (e : Event)
    (hu : untracked sid s) (he : isWelcomeFor sid e = false) :
    untracked sid (step cfg s e).1 := by
  obtain ⟨h1, h2, h3⟩ := hu
  cases e with
  | connect tgt spawn =>
      by_cases hc : (findConn s tgt).isSome
      · simpa [step, hc] using ⟨h1, h2, h3⟩
      · simp only [step, hc, Bool.false_eq_true, if_neg, if_false]
        refine ⟨h1, h2, ?_⟩
        intro c' hc'
        rcases List.mem_append.mp hc' with hc' | hc'
        · exact h3 c' hc'
        · rcases List.mem_singleton.mp hc' with rfl
          exact ⟨rfl, fun _ => rfl⟩
  | initMsg tgt name =>
      cases hfind : findConn s tgt with
      | none => simpa [step, hfind] using ⟨h1, h2, h3⟩
      | some cd =>
          simp only [step, hfind]
          exact untracked_updConn s sid tgt cd _ hfind rfl rfl ⟨h1, h2, h3⟩
  | welcomeReceived tgt player =>
      have htgt : tgt ≠ sid := by simpa [isWelcomeFor] using he
      cases hfind : findConn s tgt with
      | none => simpa [step, hfind] using ⟨h1, h2, h3⟩
      | some cd =>
          simp only [step, hfind]
          obtain ⟨hmem, hid⟩ := findConn_mem_id s tgt cd hfind
          obtain ⟨hr, hq, hc⟩ :=
            untracked_updConn s sid tgt cd { cd with player := player } hfind rfl rfl ⟨h1, h2, h3⟩
          refine ⟨?_, ?_, hc⟩
          · intro hmem'
            rcases List.mem_append.mp hmem' with hmem' | hmem'
            · exact h1 hmem'
            · exact htgt (List.mem_singleton.mp hmem').symm
          · intro e' he'
            rcases List.mem_append.mp he' with he' | he'
            · exact h2 e' he'
            · rcases List.mem_singleton.mp he' with rfl
              have : cd.tank.sid = tgt := (h3 cd hmem).1.trans hid
              simpa [Tank.forQuadtree, ownerOf, this] using htgt
  | pongcheck tgt now =>
      cases hfind : findConn s tgt with
      | none => simpa [step, hfind] using ⟨h1, h2, h3⟩
      | some cd =>
          simp only [step, hfind]
          exact untracked_updConn s sid tgt cd _ hfind rfl rfl ⟨h1, h2, h3⟩
  | clientCheckin tgt input now =>
      cases hfind : findConn s tgt with
      | none => simpa [step, hfind] using ⟨h1, h2, h3⟩
      | some cd =>
          simp only [step, hfind]
          exact untracked_updConn s sid tgt cd _ hfind rfl rfl ⟨h1, h2, h3⟩
  | windowResized tgt width height =>
      cases hfind : findConn s tgt with
      | none => simpa [step, hfind] using ⟨h1, h2, h3⟩
      | some cd =>
          simp only [step, hfind]
          exact untracked_updConn s sid tgt cd _ hfind rfl rfl ⟨h1, h2, h3⟩
  | disconnect tgt =>
      cases hfind : findConn s tgt with
      | none => simpa [step, hfind] using ⟨h1, h2, h3⟩
      | some cd =>
          simp only [step, hfind]
          refine ⟨?_, ?_, ?_⟩
          · intro hmem'
            exact h1 (List.mem_of_mem_erase hmem')
          · intro e' he'
            have he1 := (List.mem_filter.mp he').1
            exact h2 e' ((mem_foldl_removeKeyless cd.tank.bullets s.quadtree e').mp he1).1
          · intro c' hc'
            exact h3 c' (List.mem_of_mem_filter hc')
  | tick r now adv =>
      cases r with
      | checkPing =>
          refine ⟨h1, h2, ?_⟩
          intro c' hc'
          rcases List.mem_map.mp hc' with ⟨c, hc, rfl⟩
          by_cases hcr : c.id ∈ s.registry
          · simpa [if_pos hcr] using h3 c hc
          · simpa [if_neg hcr] using h3 c hc
      | gameObjectUpdater =>
          show untracked sid (gameObjectUpdaterFn adv s)
          refine untracked_fold_advance sid adv s.registry.reverse s ⟨h1, h2, h3⟩ ?_
          intro tid htid
          intro hcontra
          exact h1 (hcontra ▸ List.mem_reverse.mp htid)
      | clientUpdater => exact ⟨h1, h2, h3⟩
      | updateScoreboard => exact ⟨h1, h2, h3⟩

/-- Untrackedness is preserved along any trace with no handshake
acknowledgment for `sid`. -/
lemma untracked_run (cfg : Config) (sid : Nat) :
    ∀ (evs : List Event) (s : ServerState), untracked sid s →
      (∀ e ∈ evs, isWelcomeFor sid e = false) → untracked sid (run cfg s evs) := by
  intro evs
  induction evs with
  | nil => intro s hu _; exact hu
  | cons e es ih =>
      intro s hu h
      show untracked sid (run cfg (step cfg s e).1 es)
      exact ih (step cfg s e).1
        (untracked_step cfg sid s e hu (h e (List.mem_cons_self e es)))
        (fun e' he' => h e' (List.mem_cons_of_mem e he'))

/-- For an untracked session the disconnect handler changes neither the
registry nor the quadtree: the bullet loop is empty, the keyed tank
removal matches nothing, and the registry splice finds no slot. -/
lemma disconnect_noop (cfg : Config) (sid : Nat) (s : ServerState) (hu : untracked sid s) :
    (step cfg s (.disconnect sid)).1.registry = s.registry ∧
    (step cfg s (.disconnect sid)).1.quadtree = s.quadtree := by
  obtain ⟨h1, h2, h3⟩ := hu
  cases hfind : findConn s sid with
  | none => simp [step, hfind]
  | some cd =>
      obtain ⟨hmem, hid⟩ := findConn_mem_id s sid cd hfind
      obtain ⟨htank, hbul⟩ := h3 cd hmem
      simp only [step, hfind]
      constructor
      · exact List.erase_of_not_mem h1
      · rw [hbul hid, List.foldl_nil]
        refine filter_self_of_forall _ s.quadtree ?_
        intro e he
        refine decide_eq_true ?_
        intro hcontra
        refine h2 e he ?_
        rw [hcontra]
        show cd.tank.sid = sid
        exact htank.trans hid

/-- C7: a session with no handshake acknowledgment in the whole trace
never enters the registry, never owns a quadtree entry — so no query
ever returns its tank — and its disconnect (`server.js:137-163`)
leaves both the registry and the quadtree unchanged. -/
theorem pre_handshake_isolation (cfg : Config) (evs : List Event) (sid : Nat)
    (h : ∀ e ∈ evs, isWelcomeFor sid e = false) :
    sid ∉ (run cfg initialState evs).registry ∧
    (∀ (b : Box) (e : QtEntry),
      e ∈ query (run cfg initialState evs).quadtree b → ownerOf e.id ≠ sid) ∧
    (step cfg (run cfg initialState evs) (.disconnect sid)).1.registry =
      (run cfg initialState evs).registry ∧
    (step cfg (run cfg initialState evs) (.disconnect sid)).1.quadtree =
      (run cfg initialState evs).quadtree := by
  have hinit : untracked sid initialState :=
    ⟨List.not_mem_nil sid, by intro e he; exact absurd he (List.not_mem_nil e),
      by intro cd hcd; exact absurd hcd (List.not_mem_nil cd)⟩
  have hu := untracked_run cfg sid evs initialState hinit h
  refine ⟨hu.1, ?_, disconnect_noop cfg sid _ hu⟩
  intro b e he
  exact hu.2.1 e (List.mem_of_mem_filter he)

/-- Witness for C7: in the concrete trace only session 1 completes the
handshake, so session 2 is isolated and its disconnect is a no-op on
registry and quadtree. -/
theorem pre_handshake_isolation_witness :
    2 ∉ (run cfg0 initialState trace0).registry ∧
    (step cfg0 (run cfg0 initialState trace0) (.disconnect 2)).1.registry =
      (run cfg0 initialState trace0).registry ∧
    (step cfg0 (run cfg0 initialState trace0) (.disconnect 2)).1.quadtree =
      (run cfg0 initialState trace0).quadtree :=
  ⟨(pre_handshake_isolation cfg0 trace0 2 (by decide)).1,
   (pre_handshake_isolation cfg0 trace0 2 (by decide)).2.2.1,
   (pre_handshake_isolation cfg0 trace0 2 (by decide)).2.2.2⟩

end TankGame
